import Mathlib

/-!
Shallow embedding of the Medical-Records-Access-Control Soroban contract
(src/contracts/hello-world/src/lib.rs) and verification of its spec.

The contract stores, per patient address:
  - a persistent authorization vector (key `AuthorizedProviders::Patient(patient)`),
  - an instance-storage access counter (key `("COUNT", patient)`, `u64`, absent = 0),
  - an instance-storage latest access log (key `("LOG", patient)`).
We model addresses by an arbitrary type `α` with decidable equality (Soroban
`Address` equality is exact) and the three storage families as per-patient maps.
TTL extension calls are storage-lifetime hints to the host and carry no value
state, so they are not modelled.  `require_auth` is the host's caller-identity
check (it aborts before any state is read when the transaction is not signed by
the given address); the operations below model the contract body that runs once
that host check has passed.

Machine integers: `access_count` and the stored counter are `u64`.  Soroban
contract builds enable `overflow-checks`, so `count += 1` aborts (panics) when
`count` is `u64::MAX` instead of wrapping; we model this by making
`access_records` fail with `counterOverflow` when `count + 1` would reach
`2 ^ 64`.  Timestamps are only stored, never computed with, so they are plain
naturals supplied as an input (the host clock).
-/

/-- Upper bound of `u64` arithmetic: `2 ^ 64`. -/
def u64Limit : Nat := 2 ^ 64

/-- Mirrors `struct AccessLog` in the source: accessor, timestamp and the
running access count of the record. -/
structure AccessLog (α : Type) where
  accessor : α
  timestamp : Nat
  access_count : Nat
deriving DecidableEq, Repr

/-- Error outcomes of `access_records`: the `panic!("Provider is not
authorized ...")` gate, and the checked-arithmetic abort of `count += 1`. -/
inductive AccessError : Type where
  | notAuthorized : AccessError
  | counterOverflow : AccessError
deriving DecidableEq, Repr

/-- The persistent/instance storage visible to the contract, split by key
family; every key embeds the patient address.  `auth p` is the vector stored
under `AuthorizedProviders::Patient(p)` (absent is read as the empty vector via
`unwrap_or(Vec::new)`); `count p` is the `("COUNT", p)` slot (absent read as
0); `log p` is the `("LOG", p)` slot, `none` when never written. -/
structure Store (α : Type) where
  auth : α → List α
  count : α → Nat
  log : α → Option (AccessLog α)

/-- The empty store: no authorization vectors, no counters, no logs written. -/
def emptyStore (α : Type) : Store α :=
  { auth := fun _ => [], count := fun _ => 0, log := fun _ => none }

/-- Mirrors `grant_access`: load the patient's provider vector (absent as
empty); if the provider is not yet contained, push it at the back and store
the vector; otherwise only a notice is logged and nothing is written. -/
def grant_access {α : Type} [DecidableEq α] (s : Store α) (patient provider : α) :
    Store α :=
  let providers := s.auth patient
  if provider ∈ providers then
    s
  else
    { s with auth := Function.update s.auth patient (providers ++ [provider]) }

/-- Mirrors `revoke_access`: load the vector, rebuild it keeping every entry
different from `provider` (the source's index loop pushing `p != provider`
entries in order), and store the rebuilt vector unconditionally. -/
def revoke_access {α : Type} [DecidableEq α] (s : Store α) (patient provider : α) :
    Store α :=
  let providers := s.auth patient
  let new_providers := providers.filter (fun p => decide (p ≠ provider))
  { s with auth := Function.update s.auth patient new_providers }

/-- Mirrors `access_records`: if the provider is not contained in the patient's
vector, panic with the not-authorized message (no state written); otherwise
read the counter (absent as 0), increment it (checked `u64` arithmetic, see the
header note), and store the new `AccessLog` under `("LOG", patient)` and the
new counter under `("COUNT", patient)`.  `timestamp` is the host clock value
`env.ledger().timestamp()`. -/
def access_records {α : Type} [DecidableEq α] (s : Store α) (patient provider : α)
    (timestamp : Nat) : Except AccessError (Store α) :=
  let providers := s.auth patient
  if provider ∉ providers then
    Except.error AccessError.notAuthorized
  else
    let count := s.count patient
    if count + 1 < u64Limit then
      let log_entry : AccessLog α :=
        { accessor := provider, timestamp := timestamp, access_count := count + 1 }
      Except.ok
        { s with
          log := Function.update s.log patient (some log_entry),
          count := Function.update s.count patient (count + 1) }
    else
      Except.error AccessError.counterOverflow

/-- Mirrors `view_audit_trail`: pure read of the `("LOG", patient)` slot,
`none` when no log was ever stored. -/
def view_audit_trail {α : Type} (s : Store α) (patient : α) : Option (AccessLog α) :=
  s.log patient

/-- One invocation of the contract interface, with its arguments.  The
timestamp argument of `access` is the host clock value at that invocation. -/
inductive Op (α : Type) : Type where
  | grant : α → α → Op α
  | revoke : α → α → Op α
  | access : α → α → Nat → Op α
  | view : α → Op α
deriving DecidableEq, Repr

/-- The patient argument of an invocation (the identity every touched storage
key embeds). -/
def Op.patient {α : Type} : Op α → α
  | Op.grant p _ => p
  | Op.revoke p _ => p
  | Op.access p _ _ => p
  | Op.view p => p

/-- Effect of one invocation on the store.  A panicking `access_records`
aborts the transaction, so no write lands and the store is unchanged;
`view_audit_trail` is a pure read. -/
def step {α : Type} [DecidableEq α] (s : Store α) (o : Op α) : Store α :=
  match o with
  | Op.grant p q => grant_access s p q
  | Op.revoke p q => revoke_access s p q
  | Op.access p q t =>
      match access_records s p q t with
      | Except.ok s1 => s1
      | Except.error _ => s
  | Op.view _ => s

/-- Run a sequence of invocations from a store. -/
def run {α : Type} [DecidableEq α] (s : Store α) (ops : List (Op α)) : Store α :=
  ops.foldl step s

/-- Spec-side flag transition, following the spec's words for the
authorization invariant: the flag becomes true at a `grant` for this patient
and provider, false at a `revoke` for them, and is untouched by everything
else. -/
def authFlagStep {α : Type} [DecidableEq α] (p q : α) (b : Bool) (o : Op α) :
    Bool :=
  match o with
  | Op.grant p1 q1 => if p1 = p ∧ q1 = q then true else b
  | Op.revoke p1 q1 => if p1 = p ∧ q1 = q then false else b
  | _ => b

/-- Spec-side definition: the flag ends true iff a grant of `q` for `p`
occurred after the most recent revoke of `q` for `p` (or a grant occurred
and no revoke ever did). -/
def grantedAfterLastRevoke {α : Type} [DecidableEq α] (p q : α)
    (ops : List (Op α)) : Bool :=
  ops.foldl (authFlagStep p q) false

/-- Whether one invocation, run in store `s`, is a successful
`access_records` call for patient `p` (the only event that writes a log
record for `p`). -/
def stepStores {α : Type} [DecidableEq α] (s : Store α) (o : Op α) (p : α) : Bool :=
  match o with
  | Op.access p1 q t =>
      decide (p1 = p) &&
        (match access_records s p1 q t with
         | Except.ok _ => true
         | Except.error _ => false)
  | _ => false

/-- Whether some invocation of the sequence, run from `s`, successfully
stores an access record for patient `p`. -/
def anySuccess {α : Type} [DecidableEq α] (p : α) : Store α → List (Op α) → Bool
  | _, [] => false
  | s, o :: rest => stepStores s o p || anySuccess p (step s o) rest

/-- Concrete store for witnesses: patient 0 has authorized providers 1 and 2,
no counters or logs yet. -/
def demoStore : Store Nat :=
  { auth := fun p => if p = 0 then [1, 2] else []
    count := fun _ => 0
    log := fun _ => none }

/-- C1: if the provider is not a member of the patient's stored authorization
vector, `access_records` fails with the not-authorized panic and the whole
store — in particular the patient's counter and log record — is unchanged. -/
theorem access_records_unauthorized {α : Type} [DecidableEq α] (s : Store α)
    (p q : α) (t : Nat) (h : q ∉ s.auth p) :
    access_records s p q t = Except.error AccessError.notAuthorized ∧
      step s (Op.access p q t) = s := by
  have h1 : access_records s p q t = Except.error AccessError.notAuthorized := by
    simp [access_records, h]
  exact ⟨h1, by simp [step, h1]⟩

/-- Witness for C1: provider 3 is not authorized for patient 0 in `demoStore`,
so the call fails and the store is untouched. -/
theorem access_records_unauthorized_witness :
    3 ∉ demoStore.auth 0 ∧
      (access_records demoStore 0 3 42 = Except.error AccessError.notAuthorized ∧
        step demoStore (Op.access 0 3 42) = demoStore) :=
  ⟨by decide, access_records_unauthorized demoStore 0 3 42 (by decide)⟩

/-- C3: granting the same provider twice is idempotent — the second call
returns the store of the first call unchanged (no duplicate entry), and
neither call can fail. -/
theorem grant_access_idempotent {α : Type} [DecidableEq α] (s : Store α)
    (p q : α) :
    grant_access (grant_access s p q) p q = grant_access s p q := by
  unfold grant_access
  by_cases h : q ∈ s.auth p
  · simp [h]
  · simp [h, Function.update_same]

/-- C4: `revoke_access` stores exactly the previous vector with every entry
equal to the provider removed, in the original order; when the provider was
absent the stored vector equals the previous one. -/
theorem revoke_access_filters {α : Type} [DecidableEq α] (s : Store α)
    (p q : α) :
    (revoke_access s p q).auth p = (s.auth p).filter (fun x => decide (x ≠ q)) ∧
      (q ∉ s.auth p → (revoke_access s p q).auth p = s.auth p) := by
  have h1 : (revoke_access s p q).auth p =
      (s.auth p).filter (fun x => decide (x ≠ q)) := by
    simp [revoke_access, Function.update_same]
  refine ⟨h1, fun hq => ?_⟩
  rw [h1, List.filter_eq_self]
  intro a ha
  rw [decide_eq_true_eq]
  intro e
  exact hq (e ▸ ha)

/-- Witness for C4: revoking the absent provider 3 from patient 0 in
`demoStore` keeps the stored vector equal to the previous one. -/
theorem revoke_access_filters_witness :
    (revoke_access demoStore 0 3).auth 0 =
        (demoStore.auth 0).filter (fun x => decide (x ≠ 3)) ∧
      3 ∉ demoStore.auth 0 ∧
        (revoke_access demoStore 0 3).auth 0 = demoStore.auth 0 :=
  ⟨(revoke_access_filters demoStore 0 3).1, by decide,
    (revoke_access_filters demoStore 0 3).2 (by decide)⟩

/-- Characterization of a successful `access_records` call: the provider was
authorized, the incremented counter stayed in `u64` range, and the result
store differs from the input only in the patient's log and counter slots. -/
theorem access_records_ok_spec {α : Type} [DecidableEq α] {s s' : Store α}
    {p q : α} {t : Nat}
    (h : access_records s p q t = Except.ok s') :
    q ∈ s.auth p ∧ s.count p + 1 < u64Limit ∧
      s'.auth = s.auth ∧
      s'.count = Function.update s.count p (s.count p + 1) ∧
      s'.log = Function.update s.log p
        (some { accessor := q, timestamp := t, access_count := s.count p + 1 }) := by
  simp only [access_records] at h
  split at h
  · exact absurd h (by simp)
  · rename_i hq
    split at h
    · rename_i hc
      injection h with h
      subst h
      exact ⟨not_not.mp hq, hc, rfl, rfl, rfl⟩
    · exact absurd h (by simp)

/-- C2: every successful `access_records` call stores, as both the counter
slot and the record's `access_count`, exactly one more than the previously
stored counter; together with the counter starting at 0 in the empty store
this yields the sequence 1, 2, 3, … with no gaps or repeats, for any
authorized provider performing the call. -/
theorem access_count_increments {α : Type} [DecidableEq α] (s s' : Store α)
    (p q : α) (t : Nat) (h : access_records s p q t = Except.ok s') :
    s'.count p = s.count p + 1 ∧
      s'.log p =
        some { accessor := q, timestamp := t, access_count := s.count p + 1 } ∧
      (emptyStore α).count p = 0 := by
  obtain ⟨-, -, -, hc, hl⟩ := access_records_ok_spec h
  refine ⟨?_, ?_, rfl⟩
  · rw [hc, Function.update_same]
  · rw [hl, Function.update_same]

/-- Store after patient 0 granted providers 1 and 2 from the empty store. -/
def demoGrant : Store Nat :=
  grant_access (grant_access (emptyStore Nat) 0 1) 0 2

/-- Store after provider 1 successfully reads patient 0's records at time
10 in `demoGrant`. -/
def demoRun1 : Store Nat :=
  match access_records demoGrant 0 1 10 with
  | Except.ok s => s
  | Except.error _ => emptyStore Nat

/-- Store after provider 2 then successfully reads patient 0's records at
time 11 in `demoRun1`. -/
def demoRun2 : Store Nat :=
  match access_records demoRun1 0 2 11 with
  | Except.ok s => s
  | Except.error _ => emptyStore Nat

/-- Witness for C2: provider 1's successful first read for patient 0 stores
counter value 1 (the empty-store counter 0 plus one). -/
theorem access_count_increments_witness :
    access_records demoGrant 0 1 10 = Except.ok demoRun1 ∧
      (demoRun1.count 0 = demoGrant.count 0 + 1 ∧
        demoRun1.log 0 =
          some { accessor := 1, timestamp := 10,
                 access_count := demoGrant.count 0 + 1 } ∧
        (emptyStore Nat).count 0 = 0) :=
  ⟨rfl, access_count_increments demoGrant demoRun1 0 1 10 rfl⟩

/-- C6: after a successful read by `q1` followed by a successful read by
`q2` for the same patient, the audit trail holds only the `q2` record, with
the later counter value — the `q1` record is no longer retrievable. -/
theorem single_slot_retention {α : Type} [DecidableEq α] (s s1 s2 : Store α)
    (p q1 q2 : α) (t1 t2 : Nat)
    (h1 : access_records s p q1 t1 = Except.ok s1)
    (h2 : access_records s1 p q2 t2 = Except.ok s2) :
    view_audit_trail s2 p =
      some { accessor := q2, timestamp := t2, access_count := s.count p + 2 } := by
  obtain ⟨-, -, -, hc1, -⟩ := access_records_ok_spec h1
  obtain ⟨-, -, -, -, hl2⟩ := access_records_ok_spec h2
  unfold view_audit_trail
  rw [hl2, Function.update_same, hc1, Function.update_same]

/-- Witness for C6: two successful reads for patient 0, by providers 1 then
2, leave only provider 2's record (counter 2) in the audit trail. -/
theorem single_slot_retention_witness :
    access_records demoGrant 0 1 10 = Except.ok demoRun1 ∧
      access_records demoRun1 0 2 11 = Except.ok demoRun2 ∧
      view_audit_trail demoRun2 0 =
        some { accessor := 2, timestamp := 11,
               access_count := demoGrant.count 0 + 2 } :=
  ⟨rfl, rfl, single_slot_retention demoGrant demoRun1 demoRun2 0 1 2 10 11 rfl rfl⟩

/-- Granting never touches the log storage family. -/
theorem grant_access_log {α : Type} [DecidableEq α] (s : Store α) (p q : α) :
    (grant_access s p q).log = s.log := by
  unfold grant_access
  by_cases h : q ∈ s.auth p <;> simp [h]

/-- Granting never touches the counter storage family. -/
theorem grant_access_count {α : Type} [DecidableEq α] (s : Store α) (p q : α) :
    (grant_access s p q).count = s.count := by
  unfold grant_access
  by_cases h : q ∈ s.auth p <;> simp [h]

/-- Revoking never touches the log storage family. -/
theorem revoke_access_log {α : Type} [DecidableEq α] (s : Store α) (p q : α) :
    (revoke_access s p q).log = s.log :=
  rfl

/-- Revoking never touches the counter storage family. -/
theorem revoke_access_count {α : Type} [DecidableEq α] (s : Store α) (p q : α) :
    (revoke_access s p q).count = s.count :=
  rfl

/-- An `access_records` invocation, successful or not, never touches the
authorization storage family. -/
theorem access_step_auth {α : Type} [DecidableEq α] (s : Store α) (p q : α)
    (t : Nat) : (step s (Op.access p q t)).auth = s.auth := by
  cases hres : access_records s p q t with
  | ok s1 =>
    obtain ⟨-, -, ha, -, -⟩ := access_records_ok_spec hres
    simp [step, hres, ha]
  | error e => simp [step, hres]

/-- C10: every invocation whose patient argument is `o.patient` leaves the
authorization vector, counter and log record of every other patient `r`
unchanged — all storage keys it reads or writes embed its own patient. -/
theorem per_patient_isolation {α : Type} [DecidableEq α] (s : Store α)
    (o : Op α) (r : α) (h : r ≠ o.patient) :
    (step s o).auth r = s.auth r ∧ (step s o).count r = s.count r ∧
      (step s o).log r = s.log r := by
  cases o with
  | grant p q =>
    simp only [Op.patient] at h
    show (grant_access s p q).auth r = _ ∧ (grant_access s p q).count r = _ ∧
      (grant_access s p q).log r = _
    unfold grant_access
    by_cases hm : q ∈ s.auth p
    · simp [hm]
    · simp [hm, Function.update_noteq h]
  | revoke p q =>
    simp only [Op.patient] at h
    show (revoke_access s p q).auth r = _ ∧ (revoke_access s p q).count r = _ ∧
      (revoke_access s p q).log r = _
    unfold revoke_access
    simp [Function.update_noteq h]
  | access p q t =>
    simp only [Op.patient] at h
    cases hres : access_records s p q t with
    | ok s1 =>
      obtain ⟨-, -, ha, hc, hl⟩ := access_records_ok_spec hres
      simp [step, hres, ha, hc, hl, Function.update_noteq h]
    | error e => simp [step, hres]
  | view p => simp [step]

/-- Witness for C10: patient 5 is distinct from patient 0, so provider 1's
read for patient 0 leaves all of patient 5's storage unchanged. -/
theorem per_patient_isolation_witness :
    (5 : Nat) ≠ (Op.access 0 1 10 : Op Nat).patient ∧
      ((step demoGrant (Op.access 0 1 10)).auth 5 = demoGrant.auth 5 ∧
        (step demoGrant (Op.access 0 1 10)).count 5 = demoGrant.count 5 ∧
        (step demoGrant (Op.access 0 1 10)).log 5 = demoGrant.log 5) :=
  ⟨by decide, per_patient_isolation demoGrant (Op.access 0 1 10) 5 (by decide)⟩

/-- One invocation never erases a patient's stored log record. -/
theorem step_log_isSome {α : Type} [DecidableEq α] (s : Store α) (o : Op α)
    (p : α) (h : (s.log p).isSome = true) : ((step s o).log p).isSome = true := by
  cases o with
  | grant p1 q1 =>
    show ((grant_access s p1 q1).log p).isSome = true
    rw [grant_access_log]
    exact h
  | revoke p1 q1 =>
    show ((revoke_access s p1 q1).log p).isSome = true
    rw [revoke_access_log]
    exact h
  | access p1 q1 t =>
    cases hres : access_records s p1 q1 t with
    | ok s1 =>
      obtain ⟨-, -, -, -, hl⟩ := access_records_ok_spec hres
      simp only [step, hres]
      rw [hl]
      by_cases hp : p = p1
      · subst hp
        rw [Function.update_same]
        rfl
      · rw [Function.update_noteq hp]
        exact h
    | error e =>
      simp only [step, hres]
      exact h
  | view p1 => exact h

/-- C8: once a patient has a stored access record, every later sequence of
invocations — grants, revokes, reads successful or failed, audit views —
still leaves a record retrievable: the per-patient audit state never returns
from HasRecord to NoRecord. -/
theorem record_persists {α : Type} [DecidableEq α] (s : Store α)
    (ops : List (Op α)) (p : α) (h : (s.log p).isSome = true) :
    (view_audit_trail (run s ops) p).isSome = true := by
  induction ops generalizing s with
  | nil => exact h
  | cons o rest ih => exact ih (step s o) (step_log_isSome s o p h)

/-- Witness for C8: patient 0 has a record in `demoRun1`, and after a
revoke, a now-failing read and a view it still has one. -/
theorem record_persists_witness :
    (demoRun1.log 0).isSome = true ∧
      (view_audit_trail
        (run demoRun1 [Op.revoke 0 1, Op.access 0 1 12, Op.view 0]) 0).isSome =
        true :=
  ⟨by decide,
    record_persists demoRun1 [Op.revoke 0 1, Op.access 0 1 12, Op.view 0] 0
      (by decide)⟩

/-- An invocation that is not a successful record-store for `p` keeps `p`
without a stored log record. -/
theorem step_log_none {α : Type} [DecidableEq α] (s : Store α) (o : Op α)
    (p : α) (hn : s.log p = none) (hs : stepStores s o p = false) :
    (step s o).log p = none := by
  cases o with
  | grant p1 q1 =>
    show (grant_access s p1 q1).log p = none
    rw [grant_access_log]
    exact hn
  | revoke p1 q1 =>
    show (revoke_access s p1 q1).log p = none
    rw [revoke_access_log]
    exact hn
  | access p1 q1 t =>
    cases hres : access_records s p1 q1 t with
    | ok s1 =>
      have hp : p1 ≠ p := by
        intro e
        subst e
        simp [stepStores, hres] at hs
      obtain ⟨-, -, -, -, hl⟩ := access_records_ok_spec hres
      simp only [step, hres]
      rw [hl, Function.update_noteq (Ne.symm hp)]
      exact hn
    | error e =>
      simp only [step, hres]
      exact hn
  | view p1 => exact hn

/-- A run containing no successful record-store for `p` keeps `p` without a
stored log record. -/
theorem run_log_none {α : Type} [DecidableEq α] (p : α) (ops : List (Op α)) :
    ∀ s : Store α, anySuccess p s ops = false → s.log p = none →
      (run s ops).log p = none := by
  induction ops with
  | nil =>
    intro s _ hn
    exact hn
  | cons o rest ih =>
    intro s hA hn
    have h1 : stepStores s o p = false ∧ anySuccess p (step s o) rest = false := by
      simpa [anySuccess, Bool.or_eq_false_iff] using hA
    exact ih (step s o) h1.2 (step_log_none s o p hn h1.1)

/-- C9: for a patient for whom no successful `access_records` call ever
stored a record, `view_audit_trail` returns the explicit empty result `none`
— never a fabricated zero-valued record — and viewing has no effect on the
store. -/
theorem no_access_no_record {α : Type} [DecidableEq α] (ops : List (Op α))
    (p : α) (s : Store α) (h : anySuccess p (emptyStore α) ops = false) :
    view_audit_trail (run (emptyStore α) ops) p = none ∧
      step s (Op.view p) = s :=
  ⟨run_log_none p ops (emptyStore α) h rfl, rfl⟩

/-- Witness for C9: a run with a grant, a failed read for another patient
and a view stores no record for patient 0, so its audit view is `none`. -/
theorem no_access_no_record_witness :
    anySuccess 0 (emptyStore Nat) [Op.grant 0 1, Op.access 1 2 5, Op.view 0] =
        false ∧
      (view_audit_trail
          (run (emptyStore Nat) [Op.grant 0 1, Op.access 1 2 5, Op.view 0]) 0 =
          none ∧
        step demoStore (Op.view 0) = demoStore) :=
  ⟨by decide,
    no_access_no_record [Op.grant 0 1, Op.access 1 2 5, Op.view 0] 0 demoStore
      (by decide)⟩

/-- Membership after a grant: the provider pair was added, everything else
is as before. -/
theorem grant_access_mem {α : Type} [DecidableEq α] (s : Store α)
    (p q p1 q1 : α) :
    q ∈ (grant_access s p1 q1).auth p ↔ q ∈ s.auth p ∨ (p1 = p ∧ q1 = q) := by
  unfold grant_access
  by_cases hm : q1 ∈ s.auth p1
  · simp only [hm, if_pos]
    constructor
    · exact Or.inl
    · rintro (h | ⟨hp, hq⟩)
      · exact h
      · subst hp
        subst hq
        exact hm
  · simp only [hm, if_neg, not_false_iff]
    by_cases hp : p1 = p
    · subst hp
      rw [Function.update_same, List.mem_append, List.mem_singleton]
      constructor
      · rintro (h | h)
        · exact Or.inl h
        · exact Or.inr ⟨rfl, h.symm⟩
      · rintro (h | ⟨-, hq⟩)
        · exact Or.inl h
        · exact Or.inr hq.symm
    · rw [Function.update_noteq (fun e => hp e.symm)]
      constructor
      · exact Or.inl
      · rintro (h | ⟨hp1, -⟩)
        · exact h
        · exact absurd hp1 hp
  

/-- Membership after a revoke: the provider pair was removed, everything
else is as before. -/
theorem revoke_access_mem {α : Type} [DecidableEq α] (s : Store α)
    (p q p1 q1 : α) :
    q ∈ (revoke_access s p1 q1).auth p ↔
      q ∈ s.auth p ∧ ¬(p1 = p ∧ q1 = q) := by
  simp only [revoke_access]
  by_cases hp : p1 = p
  · subst hp
    rw [Function.update_same]
    simp only [List.mem_filter, decide_eq_true_eq]
    constructor
    · rintro ⟨h1, h2⟩
      exact ⟨h1, fun hc => h2 hc.2.symm⟩
    · rintro ⟨h1, h2⟩
      exact ⟨h1, fun e => h2 ⟨trivial, e.symm⟩⟩
  · rw [Function.update_noteq (fun e => hp e.symm)]
    constructor
    · intro h
      exact ⟨h, fun hc => hp hc.1⟩
    · intro h
      exact h.1

/-- Running a sequence keeps the stored membership in lock-step with the
spec-side grant-after-last-revoke flag. -/
theorem run_auth_flag {α : Type} [DecidableEq α] (p q : α)
    (ops : List (Op α)) :
    ∀ (s : Store α) (b : Bool), (q ∈ s.auth p ↔ b = true) →
      (q ∈ (run s ops).auth p ↔ ops.foldl (authFlagStep p q) b = true) := by
  induction ops with
  | nil =>
    intro s b hb
    exact hb
  | cons o rest ih =>
    intro s b hb
    have hstep : q ∈ (step s o).auth p ↔ authFlagStep p q b o = true := by
      cases o with
      | grant p1 q1 =>
        show q ∈ (grant_access s p1 q1).auth p ↔ _
        rw [grant_access_mem]
        by_cases hpq : p1 = p ∧ q1 = q
        · simp [authFlagStep, hpq]
        · simp [authFlagStep, hpq, hb]
      | revoke p1 q1 =>
        show q ∈ (revoke_access s p1 q1).auth p ↔ _
        rw [revoke_access_mem]
        by_cases hpq : p1 = p ∧ q1 = q
        · simp [authFlagStep, hpq]
        · simp [authFlagStep, hpq, hb]
      | access p1 q1 t =>
        rw [access_step_auth]
        simpa [authFlagStep] using hb
      | view p1 =>
        simpa [authFlagStep, step] using hb
    simpa [run, List.foldl_cons] using ih (step s o) (authFlagStep p q b o) hstep

/-- C5: in any run from the empty store, a provider is a member of a
patient's stored authorization vector — the membership test gating reads —
iff a grant of that provider occurred after the most recent revoke of that
provider for that patient (or the provider was granted and never revoked). -/
theorem isAuthorized_iff_granted {α : Type} [DecidableEq α]
    (ops : List (Op α)) (p q : α) :
    q ∈ (run (emptyStore α) ops).auth p ↔
      grantedAfterLastRevoke p q ops = true := by
  have h := run_auth_flag p q ops (emptyStore α) false (by simp [emptyStore])
  simpa [grantedAfterLastRevoke] using h

/-- One invocation preserves duplicate-freeness of every patient's stored
authorization vector. -/
theorem step_auth_nodup {α : Type} [DecidableEq α] (s : Store α) (o : Op α)
    (h : ∀ r, (s.auth r).Nodup) : ∀ r, ((step s o).auth r).Nodup := by
  intro r
  cases o with
  | grant p q =>
    show ((grant_access s p q).auth r).Nodup
    simp only [grant_access]
    by_cases hm : q ∈ s.auth p
    · simpa [hm] using h r
    · simp only [hm, if_neg, not_false_iff]
      by_cases hr : r = p
      · subst hr
        rw [Function.update_same]
        refine List.Nodup.append (h r) (List.nodup_singleton q) ?_
        intro a ha hb
        rw [List.mem_singleton] at hb
        exact hm (hb ▸ ha)
      · rw [Function.update_noteq hr]
        exact h r
  | revoke p q =>
    show ((revoke_access s p q).auth r).Nodup
    simp only [revoke_access]
    by_cases hr : r = p
    · subst hr
      rw [Function.update_same]
      exact List.Nodup.filter _ (h r)
    · rw [Function.update_noteq hr]
      exact h r
  | access p q t =>
    rw [access_step_auth]
    exact h r
  | view p => exact h r

/-- C7: in every store reachable from the empty store by any sequence of
invocations, no patient's stored authorization vector contains the same
provider twice. -/
theorem auth_nodup_invariant {α : Type} [DecidableEq α] (ops : List (Op α))
    (p : α) : ((run (emptyStore α) ops).auth p).Nodup := by
  suffices h : ∀ s : Store α, (∀ r, (s.auth r).Nodup) →
      ∀ r, ((run s ops).auth r).Nodup by
    exact h (emptyStore α) (fun r => by simp [emptyStore]) p
  induction ops with
  | nil =>
    intro s hs r
    exact hs r
  | cons o rest ih =>
    intro s hs r
    exact ih (step s o) (step_auth_nodup s o hs) r
